import Mathlib

/-!
Verification of the durian trading bot's core components against its
specification: the moving-average crossover signal engine
(`src/strategy.py` `SimpleMAStrategy`, mirrored by
`src/strategies/sma_crossover_strategy.py` `SMAStrategy`), the strategy
lifecycle (`src/strategies/base_strategy.py`, `SMAStrategy.start`),
the strategy registry (`src/bot/strategies/registry.py`), the AI
allocation normalization (`src/bot/strategies/gemini_portfolio/engine.py`
`determine_allocation`), and the trade-execution state update
(`SMAStrategy._execute_trade`, `src/bot.py` `DurianTradingBot.execute_trade`).

Prices are modelled as rationals; Python float arithmetic on these small
inputs is exact up to rounding, and the spec states its numeric claims up
to floating tolerance.
-/

namespace Durian

/-- Trading signal, the Python strings "BUY" / "SELL". -/
inductive Signal where
  | BUY
  | SELL
  deriving DecidableEq

/-- Position, the Python value 'LONG'; Python `None` (FLAT) is modelled by
`Option Position` being `none`. -/
inductive Position where
  | LONG
  deriving DecidableEq

/-- `xs[-n:]` in Python for `n ≥ 1`: the last `n` elements of `xs`
(all of `xs` when `n ≥ xs.length`). Also the contents kept by a
`deque(maxlen=n)` after appends. -/
def lastN {α : Type} (n : Nat) (xs : List α) : List α :=
  (xs.reverse.take n).reverse

/-- State of `SimpleMAStrategy` (src/strategy.py); `SMAStrategy` in
src/strategies/sma_crossover_strategy.py keeps the identical fields. -/
structure SimpleMAStrategy where
  fast_period : Nat
  slow_period : Nat
  /-- `self.prices = deque(maxlen=slow_period)`, newest last. -/
  prices : List ℚ
  /-- `self.position = None  # None or 'LONG'` -/
  position : Option Position
  /-- `self.last_signal = None` -/
  last_signal : Option Signal
  /-- `self.trade_count = 0` -/
  trade_count : Nat
  deriving DecidableEq

namespace SimpleMAStrategy

/-- `__init__(fast_period, slow_period, ...)`: empty deque, flat position,
no last signal, zero trades. -/
def init (fast_period slow_period : Nat) : SimpleMAStrategy :=
  { fast_period := fast_period
    slow_period := slow_period
    prices := []
    position := none
    last_signal := none
    trade_count := 0 }

/-- `add_price`: `self.prices.append(price)` on a deque with
`maxlen = slow_period` keeps the last `slow_period` entries. -/
def add_price (s : SimpleMAStrategy) (p : ℚ) : SimpleMAStrategy :=
  { s with prices := lastN s.slow_period (s.prices ++ [p]) }

/-- `calculate_ma(period)`: `None` if fewer than `period` prices, else
`sum(list(self.prices)[-period:]) / period`. Caller contract (spec §4.1):
`period ≥ 1`; Python raises ZeroDivisionError at `period = 0`. -/
def calculate_ma (s : SimpleMAStrategy) (period : Nat) : Option ℚ :=
  if s.prices.length < period then none
  else some ((lastN period s.prices).sum / (period : ℚ))

/-- `is_ready()`: `len(self.prices) >= self.slow_period`. -/
def is_ready (s : SimpleMAStrategy) : Bool :=
  decide (s.slow_period ≤ s.prices.length)

/-- `check_signal()`: returns the emitted signal with its MAs (Python
returns the tuple or `None`) together with the updated strategy state
(the Python method mutates `self.last_signal` in place). The fallback
branch is unreachable when `fast_period ≤ slow_period`: Python would
raise TypeError comparing `None` with a float there. -/
def check_signal (s : SimpleMAStrategy) :
    Option (Signal × ℚ × ℚ) × SimpleMAStrategy :=
  if s.is_ready then
    match s.calculate_ma s.fast_period, s.calculate_ma s.slow_period with
    | some fast_ma, some slow_ma =>
      if fast_ma > slow_ma ∧ s.last_signal ≠ some Signal.BUY then
        (some (Signal.BUY, fast_ma, slow_ma),
          { s with last_signal := some Signal.BUY })
      else if fast_ma < slow_ma ∧ s.last_signal ≠ some Signal.SELL then
        (some (Signal.SELL, fast_ma, slow_ma),
          { s with last_signal := some Signal.SELL })
      else (none, s)
    | _, _ => (none, s)
  else (none, s)

/-- `should_execute_trade(signal_type)`: BUY only from flat, SELL only
from LONG. -/
def should_execute_trade (s : SimpleMAStrategy) (sig : Signal) : Bool :=
  if sig = Signal.BUY ∧ s.position = none then true
  else if sig = Signal.SELL ∧ s.position = some Position.LONG then true
  else false

/-- Feed a sequence of prices through `add_price` (no signal checks). -/
def feedPrices (s : SimpleMAStrategy) (ps : List ℚ) : SimpleMAStrategy :=
  ps.foldl add_price s

/-- One bar of the run loop (`_handle_bar` / `on_crypto_bar`): push the
price, then check for a signal. -/
def stepBar (s : SimpleMAStrategy) (p : ℚ) :
    Option (Signal × ℚ × ℚ) × SimpleMAStrategy :=
  (s.add_price p).check_signal

/-- Run the bar loop over a price sequence, collecting the non-NONE
emitted signals in order. -/
def runPrices : SimpleMAStrategy → List ℚ → List (Signal × ℚ × ℚ) × SimpleMAStrategy
  | s, [] => ([], s)
  | s, p :: ps =>
    let r := s.stepBar p
    let rest := runPrices r.2 ps
    (r.1.toList ++ rest.1, rest.2)

end SimpleMAStrategy

/-- Lifecycle-relevant state of a strategy: `TradingStrategy.__init__`
sets `self.trading_client = None` and `self.is_running = False`;
`SMAStrategy.initialize` sets `self.trading_client` (here: the flag that
it is no longer `None`); `SMAStrategy.start` sets `is_running = True`. -/
structure StrategyLifecycle where
  /-- `self.trading_client is not None` -/
  trading_client_set : Bool
  /-- `self.is_running` -/
  is_running : Bool
  deriving DecidableEq

/-- The `RuntimeError("Strategy not initialized. Call initialize() first.")`
raised by `SMAStrategy.start` (spec name: IllegalStateError). -/
inductive StartError where
  | notInitialized
  deriving DecidableEq

/-- `TradingStrategy.is_ready()`: `self.trading_client is not None`. -/
def base_is_ready (s : StrategyLifecycle) : Bool :=
  s.trading_client_set

/-- Lifecycle effect of `SMAStrategy.initialize`: stores the trading
client (the stream and equity setup have no lifecycle-state effect). -/
def sma_init_client (s : StrategyLifecycle) : StrategyLifecycle :=
  { s with trading_client_set := true }

/-- Lifecycle effect of `SMAStrategy.start`: raises if `not self.is_ready()`,
otherwise sets `self.is_running = True` and enters the run loop. -/
def sma_start (s : StrategyLifecycle) : Except StartError StrategyLifecycle :=
  if ¬ base_is_ready s then Except.error StartError.notInitialized
  else Except.ok { s with is_running := true }

/-- Lifecycle effect of `SMAStrategy.stop`: sets `self.is_running = False`. -/
def sma_stop (s : StrategyLifecycle) : StrategyLifecycle :=
  { s with is_running := false }

/-- The `ValueError("Unknown strategy: ... Available strategies: ...")`
raised by `StrategyRegistry.create` (spec name: UnknownStrategyError),
carrying the requested name and the available names it lists. -/
inductive CreateError where
  | unknownStrategy (requested : String) (available : List String)
  deriving DecidableEq

/-- `StrategyRegistry._strategies` is a Python dict from name to factory;
modelled as an association list in insertion order. `β` is the factory
type. -/
def Registry (β : Type) : Type := List (String × β)

/-- Python dict assignment `d[name] = v`: overwrite in place if the key
exists (keeping its position), else append. -/
def setKey {β : Type} : Registry β → String → β → Registry β
  | [], name, v => [(name, v)]
  | kv :: rest, name, v =>
    if kv.1 = name then (name, v) :: rest else kv :: setKey rest name v

/-- `StrategyRegistry.register(name, strategy_class)`:
`cls._strategies[name] = strategy_class` (a warning is logged when the
name was already present; the overwrite happens regardless). -/
def register {β : Type} (reg : Registry β) (name : String) (factory : β) :
    Registry β :=
  setKey reg name factory

/-- Dict lookup `cls._strategies[name]` / membership `name in cls._strategies`. -/
def findFactory {β : Type} (reg : Registry β) (name : String) : Option β :=
  (reg.find? (fun kv => kv.1 = name)).map (fun kv => kv.2)

/-- `StrategyRegistry.list_strategies()`: the registered names. -/
def listStrategies {β : Type} (reg : Registry β) : List String :=
  reg.map (fun kv => kv.1)

/-- `StrategyRegistry.is_registered(name)`: `name in cls._strategies`. -/
def is_registered {β : Type} (reg : Registry β) (name : String) : Bool :=
  (findFactory reg name).isSome

/-- `StrategyRegistry.create(name, **config)`: raises UnknownStrategyError
listing the available names when unregistered, else returns
`strategy_class(**config)`. `γ` is the configuration type, `δ` the
strategy-instance type. -/
def create {γ δ : Type} (reg : Registry (γ → δ)) (name : String) (cfg : γ) :
    Except CreateError δ :=
  match findFactory reg name with
  | none => Except.error (CreateError.unknownStrategy name (listStrategies reg))
  | some f => Except.ok (f cfg)

/-- The normalization step of `GeminiAnalyzer.determine_allocation`:
`total = sum(allocations.values())`;
`normalized = {k: v/total for k, v in allocations.items()}`.
The dict is modelled as an association list of symbol/weight pairs. -/
def normalizeAllocations (allocations : List (String × ℚ)) :
    List (String × ℚ) :=
  let total := (allocations.map (fun kv => kv.2)).sum
  allocations.map (fun kv => (kv.1, kv.2 / total))

/-- Outcome of the broker call `self.trading_client.submit_order(...)`:
either an order (identified here by its id) is returned, or the call
raises. -/
inductive BrokerOutcome where
  | submitted (orderId : String)
  | raised
  deriving DecidableEq

/-- State effect of `SMAStrategy._execute_trade(signal, price)` (and of
`DurianTradingBot.execute_trade`, which mutates the same two fields of
its strategy): the whole body is inside `try/except`; `submit_order` is
called first, and only after it returns are
`self.position = 'LONG' if signal == "BUY" else None` and
`self.trade_count += 1` executed. When `submit_order` raises, the
exception is caught and logged and no field is touched. -/
def execute_trade (outcome : BrokerOutcome) (s : SimpleMAStrategy)
    (sig : Signal) : SimpleMAStrategy :=
  match outcome with
  | BrokerOutcome.raised => s
  | BrokerOutcome.submitted _ =>
    { s with
      position := if sig = Signal.BUY then some Position.LONG else none
      trade_count := s.trade_count + 1 }

/-- The end-to-end scenario prices of spec §8. -/
def scenarioPrices : List ℚ :=
  [10, 10, 10, 10, 10, 10, 10, 10, 10, 10, 11, 12, 13, 14, 15]

/-- The debounce shape of an emission trace: starting from a stored
last-signal value, each emitted signal differs from the one before it. -/
def NoRepeatFrom : Option Signal → List Signal → Prop
  | _, [] => True
  | last, x :: xs => some x ≠ last ∧ NoRepeatFrom (some x) xs

/-- A small ready engine (fast 1, slow 2, two prices collected). -/
def sampleEngine : SimpleMAStrategy :=
  { fast_period := 1
    slow_period := 2
    prices := [1, 2]
    position := none
    last_signal := none
    trade_count := 0 }

/-! ### List lemmas about `lastN` -/

theorem lastN_length {α : Type} (n : Nat) (xs : List α) :
    (lastN n xs).length = min n xs.length := by
  simp [lastN]

theorem lastN_append_left {α : Type} (n : Nat) (xs ys : List α) :
    lastN n (lastN n xs ++ ys) = lastN n (xs ++ ys) := by
  simp [lastN, List.reverse_append, List.take_append_eq_append_take,
    List.take_take, Nat.min_eq_left (Nat.sub_le n ys.length)]

theorem lastN_lastN {α : Type} (m n : Nat) (h : n ≤ m) (xs : List α) :
    lastN n (lastN m xs) = lastN n xs := by
  simp [lastN, List.take_take, Nat.min_eq_left h]

theorem lastN_eq_drop {α : Type} (n : Nat) (xs : List α) :
    lastN n xs = xs.drop (xs.length - n) := by
  simp [lastN, List.reverse_take]

/-! ### Feeding prices -/

theorem feedPrices_general (ps : List ℚ) (s : SimpleMAStrategy) (xs : List ℚ)
    (hx : s.prices = lastN s.slow_period xs) :
    (s.feedPrices ps).prices = lastN s.slow_period (xs ++ ps) ∧
    (s.feedPrices ps).slow_period = s.slow_period ∧
    (s.feedPrices ps).fast_period = s.fast_period := by
  induction ps generalizing s xs with
  | nil => simpa [SimpleMAStrategy.feedPrices] using hx
  | cons p ps ih =>
    have hx' : (s.add_price p).prices =
        lastN (s.add_price p).slow_period (xs ++ [p]) := by
      simp [SimpleMAStrategy.add_price, hx, lastN_append_left]
    have h := ih (s.add_price p) (xs ++ [p]) hx'
    simpa [SimpleMAStrategy.feedPrices, SimpleMAStrategy.add_price,
      List.append_assoc] using h

theorem feedPrices_init_prices (fast slow : Nat) (ps : List ℚ) :
    ((SimpleMAStrategy.init fast slow).feedPrices ps).prices = lastN slow ps := by
  have h := (feedPrices_general ps (SimpleMAStrategy.init fast slow) []
    (by simp [SimpleMAStrategy.init, lastN])).1
  simpa [SimpleMAStrategy.init] using h

/-- C3: for every price sequence fed via `add_price` and every period
`1 ≤ period ≤ slow` (the slow window length), `calculate_ma period` is the
arithmetic mean of exactly the last `period` prices once at least `period`
samples exist, and `none` (unavailable) when fewer exist. -/
theorem movingAverage_correct (fast slow period : Nat) (ps : List ℚ)
    (_h1 : 1 ≤ period) (h2 : period ≤ slow) :
    ((SimpleMAStrategy.init fast slow).feedPrices ps).calculate_ma period =
      if ps.length < period then none
      else some ((lastN period ps).sum / (period : ℚ)) := by
  have hp := feedPrices_init_prices fast slow ps
  have hsl : ((SimpleMAStrategy.init fast slow).feedPrices ps).slow_period = slow :=
    (feedPrices_general ps (SimpleMAStrategy.init fast slow) []
      (by simp [SimpleMAStrategy.init, lastN])).2.1
  unfold SimpleMAStrategy.calculate_ma
  rw [hp, lastN_length, lastN_lastN slow period h2 ps]
  have hcond : (min slow ps.length < period) ↔ (ps.length < period) := by omega
  by_cases h : ps.length < period
  · rw [if_pos (hcond.2 h), if_pos h]
  · rw [if_neg (fun hc => h (hcond.1 hc)), if_neg h]

/-- Witness for C3 at a concrete input: fast 2, slow 3, four prices,
period 2 — the moving average is the mean of the last two prices. -/
theorem movingAverage_correct_witness :
    (SimpleMAStrategy.feedPrices (SimpleMAStrategy.init 2 3)
        [1, 2, 3, 4]).calculate_ma 2 =
      if ([1, 2, 3, 4] : List ℚ).length < 2 then none
      else some ((lastN 2 [(1 : ℚ), 2, 3, 4]).sum / (2 : ℚ)) :=
  movingAverage_correct 2 3 2 [1, 2, 3, 4] (by decide) (by decide)

/-- C4: the price series never exceeds the configured capacity `slow`
(the slow window length); after feeding `ps` it holds exactly the most
recent `min ps.length slow` prices; and after `slow + 1` pushes it is the
price list with its first (oldest) element evicted. -/
theorem priceSeries_ring_buffer (fast slow : Nat) (ps : List ℚ) :
    ((SimpleMAStrategy.init fast slow).feedPrices ps).prices.length ≤ slow ∧
    ((SimpleMAStrategy.init fast slow).feedPrices ps).prices = lastN slow ps ∧
    ((SimpleMAStrategy.init fast slow).feedPrices ps).prices.length =
      min ps.length slow ∧
    (ps.length = slow + 1 →
      ((SimpleMAStrategy.init fast slow).feedPrices ps).prices = ps.drop 1) := by
  have hp := feedPrices_init_prices fast slow ps
  refine ⟨?_, hp, ?_, ?_⟩
  · rw [hp, lastN_length]; omega
  · rw [hp, lastN_length]; omega
  · intro hlen
    rw [hp, lastN_eq_drop, hlen]
    simp

/-- Witness for C4 at a concrete input: capacity 2, three pushes — the
oldest price is evicted. -/
theorem priceSeries_ring_buffer_witness :
    (SimpleMAStrategy.feedPrices (SimpleMAStrategy.init 1 2)
        [1, 2, 3]).prices = List.drop 1 [(1 : ℚ), 2, 3] :=
  (priceSeries_ring_buffer 1 2 [1, 2, 3]).2.2.2 (by decide)

/-- C5: `should_execute_trade` — BUY is allowed iff the position is flat
(`none`), SELL is allowed iff the position is LONG, over all four
(signal, position) combinations; and the result depends only on the
position field (the function reads no other state and, being a plain
function of the state, modifies none). -/
theorem should_execute_trade_correct (s : SimpleMAStrategy) (sig : Signal) :
    (s.should_execute_trade sig = true ↔
      (sig = Signal.BUY ∧ s.position = none) ∨
      (sig = Signal.SELL ∧ s.position = some Position.LONG)) ∧
    (∀ t : SimpleMAStrategy, t.position = s.position →
      t.should_execute_trade sig = s.should_execute_trade sig) := by
  constructor
  · cases sig <;> rcases hp : s.position with _ | ⟨⟩ <;>
      simp [SimpleMAStrategy.should_execute_trade, hp]
  · intro t ht
    simp [SimpleMAStrategy.should_execute_trade, ht]

/-- Witness for C5 at a concrete input: a fresh engine is flat, so a BUY
signal is tradeable. -/
theorem should_execute_trade_correct_witness :
    ((SimpleMAStrategy.init 5 15).should_execute_trade Signal.BUY = true ↔
      (Signal.BUY = Signal.BUY ∧ (SimpleMAStrategy.init 5 15).position = none) ∨
      (Signal.BUY = Signal.SELL ∧
        (SimpleMAStrategy.init 5 15).position = some Position.LONG)) ∧
    sampleEngine.should_execute_trade Signal.SELL =
      (SimpleMAStrategy.init 5 15).should_execute_trade Signal.SELL :=
  ⟨(should_execute_trade_correct (SimpleMAStrategy.init 5 15) Signal.BUY).1,
   (should_execute_trade_correct (SimpleMAStrategy.init 5 15) Signal.SELL).2
     sampleEngine rfl⟩

/-- C6 (amended): `start()` raises exactly when `initialize()` has not
yet stored a trading client; whenever the client is set — including when
the strategy is already running — `start()` succeeds and sets
`is_running`. -/
theorem sma_start_guard (s : StrategyLifecycle) :
    (s.trading_client_set = false →
      sma_start s = Except.error StartError.notInitialized) ∧
    (s.trading_client_set = true →
      sma_start s = Except.ok { s with is_running := true }) := by
  constructor <;> intro h <;> simp [sma_start, base_is_ready, h]

/-- Witness for C6's amended theorem: a fresh strategy cannot be started;
one whose client is set can. -/
theorem sma_start_guard_witness :
    sma_start { trading_client_set := false, is_running := false } =
      Except.error StartError.notInitialized ∧
    sma_start { trading_client_set := true, is_running := false } =
      Except.ok { trading_client_set := true, is_running := true } :=
  ⟨(sma_start_guard _).1 rfl, (sma_start_guard _).2 rfl⟩

/-- C6 counterexample: starting a fresh strategy after storing the client
succeeds, and calling `start` a second time on the now-running strategy
ALSO succeeds — it does not fail, contrary to the claim that a second
`start()` raises IllegalStateError. -/
theorem sma_start_twice_counterexample :
    sma_start (sma_init_client
        { trading_client_set := false, is_running := false }) =
      Except.ok { trading_client_set := true, is_running := true } ∧
    sma_start { trading_client_set := true, is_running := true } =
      Except.ok { trading_client_set := true, is_running := true } :=
  ⟨rfl, rfl⟩

/-- C10: the position flip and trade-count increment of `_execute_trade`
happen only after `submit_order` returns; when the broker call raises,
the caught exception leaves the strategy state exactly as it was. -/
theorem execute_trade_atomic (s : SimpleMAStrategy) (sig : Signal) :
    execute_trade BrokerOutcome.raised s sig = s ∧
    ∀ oid : String,
      execute_trade (BrokerOutcome.submitted oid) s sig =
        { s with
          position := if sig = Signal.BUY then some Position.LONG else none
          trade_count := s.trade_count + 1 } :=
  ⟨rfl, fun _ => rfl⟩

/-! ### Registry lemmas -/

theorem findFactory_setKey_self {β : Type} (reg : Registry β) (name : String)
    (v : β) : findFactory (setKey reg name v) name = some v := by
  induction reg with
  | nil => simp [setKey, findFactory, List.find?]
  | cons kv rest ih =>
    by_cases h : kv.1 = name
    · simp [setKey, h, findFactory, List.find?]
    · simp only [setKey, if_neg h]
      simpa [findFactory, List.find?, h] using ih

/-- C8: after `register name F`, `create name cfg` returns exactly the
instance `F cfg`; `create` on an unregistered name fails with
UnknownStrategyError carrying the list of available names (and, being a
plain function of the registry, leaves the registry value unchanged);
and re-registering a name replaces the factory, so the later
registration wins. -/
theorem registry_correct {γ δ : Type} (reg : Registry (γ → δ))
    (name : String) (F G : γ → δ) (cfg : γ) :
    create (register reg name F) name cfg = Except.ok (F cfg) ∧
    (findFactory reg name = none →
      create reg name cfg =
        Except.error (CreateError.unknownStrategy name (listStrategies reg))) ∧
    create (register (register reg name F) name G) name cfg =
      Except.ok (G cfg) := by
  refine ⟨?_, ?_, ?_⟩
  · simp [create, register, findFactory_setKey_self]
  · intro h; simp [create, h]
  · simp [create, register, findFactory_setKey_self]

/-- Witness for C8 at concrete inputs: registering "x" with the successor
factory and creating it yields the factory applied to the configuration;
creating from the empty registry fails with the unknown-strategy error. -/
theorem registry_correct_witness :
    create (register ([] : Registry (Nat → Nat)) "x" (fun n => n + 1)) "x" 3 =
      Except.ok 4 ∧
    create ([] : Registry (Nat → Nat)) "x" 3 =
      Except.error (CreateError.unknownStrategy "x" []) :=
  ⟨(registry_correct [] "x" (fun n => n + 1) (fun n => n + 1) 3).1,
   (registry_correct [] "x" (fun n => n + 1) (fun n => n + 1) 3).2.1 rfl⟩

/-! ### Allocation normalization -/

theorem sum_map_div (l : List ℚ) (c : ℚ) :
    (l.map (fun x => x / c)).sum = l.sum / c := by
  induction l with
  | nil => simp
  | cons x xs ih => simp [ih, add_div]

/-- C9: `determine_allocation` divides every AI-returned weight by the
total; whenever the raw weights have positive sum the normalized weights
sum to exactly 1 (so certainly to 1 within tolerance `1e-9`), and the
raw map {A: 0.3, B: 0.5, C: 0.4} (sum 1.2 = 6/5) normalizes to each
weight divided by 1.2, i.e. {A: 1/4, B: 5/12, C: 1/3}, matching the
quoted four-decimal figures 0.25 / 0.4167 / 0.3333. -/
theorem determine_allocation_normalizes (allocations : List (String × ℚ))
    (hpos : 0 < (allocations.map (fun kv => kv.2)).sum) :
    ((normalizeAllocations allocations).map (fun kv => kv.2)).sum = 1 ∧
    |((normalizeAllocations allocations).map (fun kv => kv.2)).sum - 1| ≤
      1 / 10 ^ 9 ∧
    normalizeAllocations [("A", 3/10), ("B", 1/2), ("C", 2/5)] =
      [("A", (3/10) / (6/5)), ("B", (1/2) / (6/5)), ("C", (2/5) / (6/5))] ∧
    ((3 : ℚ)/10) / (6/5) = 1/4 ∧
    ((1 : ℚ)/2) / (6/5) = 5/12 ∧
    ((2 : ℚ)/5) / (6/5) = 1/3 ∧
    |(5 : ℚ)/12 - 4167/10000| ≤ 1/10^4 ∧
    |(1 : ℚ)/3 - 3333/10000| ≤ 1/10^4 := by
  have hsum : ((normalizeAllocations allocations).map (fun kv => kv.2)).sum = 1 := by
    have hmm : (normalizeAllocations allocations).map (fun kv => kv.2) =
        (allocations.map (fun kv => kv.2)).map
          (fun x => x / (allocations.map (fun kv => kv.2)).sum) := by
      simp [normalizeAllocations, List.map_map, Function.comp]
    rw [hmm, sum_map_div, div_self (ne_of_gt hpos)]
  refine ⟨hsum, ?_, ?_, by norm_num, by norm_num, by norm_num,
    by rw [abs_of_nonpos (by norm_num)]; norm_num,
    by rw [abs_of_nonneg (by norm_num)]; norm_num⟩
  · rw [hsum]; norm_num
  · norm_num [normalizeAllocations]

/-- Witness for C9 at the spec's concrete raw allocations. -/
theorem determine_allocation_normalizes_witness :
    ((normalizeAllocations [("A", 3/10), ("B", 1/2), ("C", 2/5)]).map
      (fun kv => kv.2)).sum = 1 :=
  (determine_allocation_normalizes [("A", 3/10), ("B", 1/2), ("C", 2/5)]
    (by norm_num)).1

/-- C1: `check_signal` returns NONE (and leaves the state unchanged) when
fewer than `slow_period` prices have been collected; otherwise, with
`f`/`sl` the fast and slow moving averages, it returns BUY(f, sl) iff
`f > sl` and the last emitted signal was not BUY, SELL(f, sl) iff
`f < sl` and the last emitted signal was not SELL, returns NONE when
`f = sl`, and every non-NONE return stores the returned signal as the
new last-signal state (all other fields unchanged). -/
theorem check_signal_correct (s : SimpleMAStrategy) :
    (s.prices.length < s.slow_period → s.check_signal = (none, s)) ∧
    (∀ f sl : ℚ, s.slow_period ≤ s.prices.length →
      s.calculate_ma s.fast_period = some f →
      s.calculate_ma s.slow_period = some sl →
      ((s.check_signal.1 = some (Signal.BUY, f, sl)) ↔
        f > sl ∧ s.last_signal ≠ some Signal.BUY) ∧
      ((s.check_signal.1 = some (Signal.SELL, f, sl)) ↔
        f < sl ∧ s.last_signal ≠ some Signal.SELL) ∧
      (f = sl → s.check_signal.1 = none) ∧
      (∀ sig fm sm, s.check_signal.1 = some (sig, fm, sm) →
        fm = f ∧ sm = sl ∧
        s.check_signal.2 = { s with last_signal := some sig }) ∧
      (s.check_signal.1 = none → s.check_signal.2 = s)) := by
  constructor
  · intro h
    have hr : s.is_ready = false := by
      simp [SimpleMAStrategy.is_ready]; omega
    simp [SimpleMAStrategy.check_signal, hr]
  · intro f sl hlen hf hsl
    have hr : s.is_ready = true := by
      simp [SimpleMAStrategy.is_ready, hlen]
    have key : s.check_signal =
        (if f > sl ∧ s.last_signal ≠ some Signal.BUY then
          (some (Signal.BUY, f, sl), { s with last_signal := some Signal.BUY })
        else if f < sl ∧ s.last_signal ≠ some Signal.SELL then
          (some (Signal.SELL, f, sl), { s with last_signal := some Signal.SELL })
        else (none, s)) := by
      simp only [SimpleMAStrategy.check_signal, hr, if_true, hf, hsl]
    rw [key]
    by_cases hb : f > sl ∧ s.last_signal ≠ some Signal.BUY
    · rw [if_pos hb]
      refine ⟨by simp [hb], ?_, ?_, ?_, by simp⟩
      · constructor
        · intro h; simp at h
        · rintro ⟨h1, -⟩; exact absurd h1 (lt_asymm hb.1)
      · intro he; exact absurd (he ▸ hb.1) (lt_irrefl _)
      · intro sig fm sm h
        injection h with h'
        simp only [Prod.mk.injEq] at h'
        obtain ⟨rfl, rfl, rfl⟩ := h'
        exact ⟨rfl, rfl, rfl⟩
    · rw [if_neg hb]
      by_cases hs2 : f < sl ∧ s.last_signal ≠ some Signal.SELL
      · rw [if_pos hs2]
        refine ⟨?_, by simp [hs2], ?_, ?_, by simp⟩
        · constructor
          · intro h; simp at h
          · intro h; exact absurd h hb
        · intro he; exact absurd (he ▸ hs2.1) (lt_irrefl _)
        · intro sig fm sm h
          injection h with h'
          simp only [Prod.mk.injEq] at h'
          obtain ⟨rfl, rfl, rfl⟩ := h'
          exact ⟨rfl, rfl, rfl⟩
      · rw [if_neg hs2]
        refine ⟨?_, ?_, fun _ => rfl, ?_, fun _ => rfl⟩
        · constructor
          · intro h; simp at h
          · intro h; exact absurd h hb
        · constructor
          · intro h; simp at h
          · intro h; exact absurd h hs2
        · intro sig fm sm h; simp at h

/-- Witness for C1 at a concrete ready engine (fast 1, slow 2, prices
[1, 2]): the BUY branch of the characterization. -/
theorem check_signal_correct_witness :
    (sampleEngine.check_signal.1 = some (Signal.BUY, 2, 3/2)) ↔
      (2 : ℚ) > 3/2 ∧ sampleEngine.last_signal ≠ some Signal.BUY :=
  ((check_signal_correct sampleEngine).2 2 (3/2) (by decide)
    (by norm_num [sampleEngine, SimpleMAStrategy.calculate_ma, lastN])
    (by norm_num [sampleEngine, SimpleMAStrategy.calculate_ma, lastN])).1

theorem check_signal_cases (s : SimpleMAStrategy) :
    (s.check_signal.1 = none ∧ s.check_signal.2 = s) ∨
    (∃ sig fm sm, s.check_signal.1 = some (sig, fm, sm) ∧
      s.last_signal ≠ some sig ∧
      s.check_signal.2 = { s with last_signal := some sig }) := by
  unfold SimpleMAStrategy.check_signal
  by_cases hr : s.is_ready = true
  · rw [if_pos hr]
    rcases hcf : s.calculate_ma s.fast_period with _ | f <;>
      rcases hcs : s.calculate_ma s.slow_period with _ | sl
    · left; exact ⟨rfl, rfl⟩
    · left; exact ⟨rfl, rfl⟩
    · left; exact ⟨rfl, rfl⟩
    · dsimp only
      by_cases hb : f > sl ∧ s.last_signal ≠ some Signal.BUY
      · right
        exact ⟨Signal.BUY, f, sl, by rw [if_pos hb], hb.2, by rw [if_pos hb]⟩
      · rw [if_neg hb]
        by_cases hs2 : f < sl ∧ s.last_signal ≠ some Signal.SELL
        · right
          exact ⟨Signal.SELL, f, sl, by rw [if_pos hs2], hs2.2, by rw [if_pos hs2]⟩
        · rw [if_neg hs2]; left; exact ⟨rfl, rfl⟩
  · rw [if_neg hr]; left; exact ⟨rfl, rfl⟩

theorem noRepeatFrom_chain (last : Option Signal) (xs : List Signal)
    (h : NoRepeatFrom last xs) :
    List.Chain' (fun a b => a ≠ b) xs := by
  induction xs generalizing last with
  | nil => simp
  | cons x xs ih =>
    rcases h with ⟨-, h2⟩
    cases xs with
    | nil => simp
    | cons y ys =>
      refine List.Chain'.cons ?_ (ih (some x) h2)
      exact fun he => h2.1 (by rw [he])

theorem runPrices_noRepeat (ps : List ℚ) (s : SimpleMAStrategy) :
    NoRepeatFrom s.last_signal ((s.runPrices ps).1.map (fun e => e.1)) := by
  induction ps generalizing s with
  | nil => trivial
  | cons p ps ih =>
    simp only [SimpleMAStrategy.runPrices, SimpleMAStrategy.stepBar]
    rcases check_signal_cases (s.add_price p) with ⟨h1, h2⟩ |
      ⟨sig, fm, sm, h1, hne, h2⟩
    · rw [h1, h2]
      simp only [Option.toList_none, List.nil_append]
      exact ih (s.add_price p)
    · rw [h1, h2]
      simp only [Option.toList_some, List.cons_append, List.nil_append,
        List.map_cons]
      refine ⟨?_, ?_⟩
      · have hs : (s.add_price p).last_signal = s.last_signal := rfl
        rw [← hs]
        exact fun he => hne he.symm
      · exact ih { s.add_price p with last_signal := some sig }

/-- C2: over any price sequence fed bar by bar (push the price, then
check the signal), the sequence of non-NONE emitted signals never
contains two consecutive equal signals — in particular never two BUYs or
two SELLs without an intervening opposite signal, however long the
fast MA stays above (or below) the slow MA. -/
theorem debounce_signals (fast slow : Nat) (ps : List ℚ) :
    List.Chain' (fun a b => a ≠ b)
      (((SimpleMAStrategy.init fast slow).runPrices ps).1.map (fun e => e.1)) :=
  noRepeatFrom_chain _ _ (runPrices_noRepeat ps _)


/-- C7 counterexample: in the spec's end-to-end scenario (fast 5,
slow 15, prices ten 10s then 11..15), the slow MA at bar 15 is the mean
of all fifteen prices, 165/15 = 11 exactly — not ≈ 11.47 as the claim
states: 11 is not within even 0.01 of 11.47. -/
theorem scenario_slowMA_counterexample :
    (SimpleMAStrategy.feedPrices (SimpleMAStrategy.init 5 15)
        scenarioPrices).calculate_ma 15 = some 11 ∧
    ¬ |(11 : ℚ) - 1147/100| ≤ 1/100 := by
  constructor
  · norm_num [SimpleMAStrategy.feedPrices, SimpleMAStrategy.add_price,
      SimpleMAStrategy.calculate_ma, lastN, SimpleMAStrategy.init,
      scenarioPrices]
  · rw [abs_of_nonpos (by norm_num)]
    norm_num

/-- C7 (amended): feeding [10×10, 11, 12, 13, 14, 15] into a fresh
engine with fast 5 and slow 15, the only emission of the whole run is at
bar 15: fastMA = (11+12+13+14+15)/5 = 13, slowMA = 165/15 = 11 (not
≈ 11.47); fastMA > slowMA with no prior signal, so BUY(13, 11) is
emitted, and with the position still flat `should_execute_trade BUY` is
true. -/
theorem scenario_end_to_end :
    ((SimpleMAStrategy.init 5 15).runPrices scenarioPrices).1 =
      [(Signal.BUY, 13, 11)] ∧
    (SimpleMAStrategy.feedPrices (SimpleMAStrategy.init 5 15)
        scenarioPrices).calculate_ma 5 = some 13 ∧
    (SimpleMAStrategy.feedPrices (SimpleMAStrategy.init 5 15)
        scenarioPrices).calculate_ma 15 = some 11 ∧
    ((SimpleMAStrategy.init 5 15).runPrices scenarioPrices).2.position =
      none ∧
    ((SimpleMAStrategy.init 5 15).runPrices
        scenarioPrices).2.should_execute_trade Signal.BUY = true := by
  refine ⟨?_, ?_, ?_, ?_, ?_⟩
  · norm_num [SimpleMAStrategy.runPrices, SimpleMAStrategy.stepBar,
      SimpleMAStrategy.check_signal, SimpleMAStrategy.add_price,
      SimpleMAStrategy.calculate_ma, SimpleMAStrategy.is_ready, lastN,
      SimpleMAStrategy.init, scenarioPrices]
    decide
  · norm_num [SimpleMAStrategy.feedPrices, SimpleMAStrategy.add_price,
      SimpleMAStrategy.calculate_ma, lastN, SimpleMAStrategy.init,
      scenarioPrices]
  · norm_num [SimpleMAStrategy.feedPrices, SimpleMAStrategy.add_price,
      SimpleMAStrategy.calculate_ma, lastN, SimpleMAStrategy.init,
      scenarioPrices]
  · norm_num [SimpleMAStrategy.runPrices, SimpleMAStrategy.stepBar,
      SimpleMAStrategy.check_signal, SimpleMAStrategy.add_price,
      SimpleMAStrategy.calculate_ma, SimpleMAStrategy.is_ready, lastN,
      SimpleMAStrategy.init, scenarioPrices]
    decide
  · norm_num [SimpleMAStrategy.runPrices, SimpleMAStrategy.stepBar,
      SimpleMAStrategy.check_signal, SimpleMAStrategy.add_price,
      SimpleMAStrategy.calculate_ma, SimpleMAStrategy.is_ready, lastN,
      SimpleMAStrategy.init, scenarioPrices,
      SimpleMAStrategy.should_execute_trade]
    decide

end Durian
